import Mathlib

/-! # sbom-license-check: a shallow embedding

The script `src/sbom-license-check.js` loads an allow-list of license
identifiers, reads a primary SBOM and an optional baseline SBOM, filters
the primary components and prints a report.

A parsed document is any JSON value; of a value that is not an object the
script observes only its kind and its truthiness.  Below the document,
input is modelled at the shape the script consumes: an object document
has an optional `components` array; a component has optional `name`,
`purl`, `licenses` and `properties`; a license entry is either JSON
`null` or an object with an optional nested `license` object, which has
an optional `id`; a property has optional `name` and `value`.  An absent
field is `none` (JavaScript `undefined`).  Strings may be empty, and the
script's truthiness tests (`!x`, `x || d`) are kept: the empty string is
falsy like `undefined`.  A JavaScript `TypeError` is the `Except.error`
result.
-/

namespace SbomLicenseCheck

/-! ## Data model -/

/-- The nested `license` object of a license entry: `{ id }`. -/
structure LicenseObj where
  id : Option String
  deriving DecidableEq, Repr

/-- A license entry of `component.licenses`: `{ license: { id } }`. -/
structure LicenseEntry where
  license : Option LicenseObj
  deriving DecidableEq, Repr

/-- An element of `component.properties`: `{ name, value }`. -/
structure Property where
  name : Option String
  value : Option String
  deriving DecidableEq, Repr

/-- A component record; an element `none` of `licenses` is a JSON `null`. -/
structure Component where
  name : Option String
  purl : Option String
  licenses : Option (List (Option LicenseEntry))
  properties : Option (List Property)
  deriving DecidableEq, Repr

/-- A parsed SBOM document that is a JSON object, of which only `components` is read. -/
structure SbomDoc where
  components : Option (List Component)
  deriving DecidableEq, Repr

/-- The result of `JSON.parse` on an input file: any JSON value.  Of a number
only whether it is zero is observed, and of an array nothing is read. -/
inductive JsonDoc where
  | null
  | bool (b : Bool)
  | number (isZero : Bool)
  | string (s : String)
  | array
  | object (doc : SbomDoc)
  deriving DecidableEq, Repr

/-- The failure of a JavaScript evaluation. -/
inductive JsError where
  | typeError
  deriving DecidableEq, Repr

/-! ## JavaScript helpers -/

/-- Truthiness of a string-or-undefined value: `undefined` and `''` are falsy. -/
def truthy : Option String → Bool
  | none => false
  | some s => decide (s ≠ "")

/-- The expression `x || d` for a string-or-undefined `x` and a string `d`. -/
def orElse (x : Option String) (d : String) : String :=
  match x with
  | none => d
  | some s => if s ≠ "" then s else d

/-- Truthiness of a parsed document, as tested by `if (baselineSBOMData)`:
`null`, `false`, `0` and `''` are falsy. -/
def JsonDoc.truthy : JsonDoc → Bool
  | .null => false
  | .bool b => b
  | .number isZero => !isZero
  | .string s => decide (s ≠ "")
  | .array => true
  | .object _ => true

/-- The `components` field of a parsed document, if it has one. -/
def componentsField : JsonDoc → Option (List Component)
  | .object doc => doc.components
  | _ => none

/-- The property read `doc.components`: it throws on `null` and gives
`undefined` on a value that has no such field. -/
def readComponents (doc : JsonDoc) : Except JsError (Option (List Component)) :=
  match doc with
  | .null => .error .typeError
  | _ => .ok (componentsField doc)

/-! ## Filter (lines 63-75) -/

/-- Lines 70-75: `isUnapprovedLicense`, with the allow-list as a parameter. -/
def isUnapprovedLicense (approvedLicenses : List String) (license : Option LicenseEntry) : Bool :=
  match license with
  | none => false
  | some entry =>
    match entry.license with
    | none => false
    | some obj =>
      if !truthy obj.id then false
      else
        match obj.id with
        | none => false
        | some id => !decide (id ∈ approvedLicenses)

/-- Lines 63-68: `filterComponentsWithUnapprovedLicenses`. -/
def filterComponentsWithUnapprovedLicenses (approvedLicenses : List String)
    (components : List Component) : List Component :=
  components.filter fun component =>
    let licenses := component.licenses.getD []
    licenses.any fun license => isUnapprovedLicense approvedLicenses license

/-- The identifier a license entry carries, if any (`license.license.id`). -/
def entryId (license : Option LicenseEntry) : Option String :=
  match license with
  | none => none
  | some entry =>
    match entry.license with
    | none => none
    | some obj => obj.id

/-! ## Baseline exclusion and the filtered list (lines 46-55) -/

/-- Line 50: the purls of the baseline components, `undefined` included.
The script holds them in a `Set`, of which only membership is used. -/
def baselineComponentsPurls (baselineComponents : List Component) : List (Option String) :=
  baselineComponents.map fun component => component.purl

/-- Line 51: the primary components whose `purl` is not in the baseline set. -/
def newComponents (baselineComponents components : List Component) : List Component :=
  components.filter fun component =>
    !decide (component.purl ∈ baselineComponentsPurls baselineComponents)

/-- Lines 46-55: `filteredComponents`.  The baseline is `none` when no
baseline path was given (`baselineSBOMData` is `undefined`).  Line 46 throws
on a `null` primary document; line 49 takes the baseline branch for a truthy
baseline only; there a baseline without `components` makes
`baselineSBOMData.components.map` throw. -/
def filteredComponents (approvedLicenses : List String) (sbomData : JsonDoc)
    (baselineSBOMData : Option JsonDoc) : Except JsError (List Component) :=
  match readComponents sbomData with
  | .error e => .error e
  | .ok field =>
    let components := field.getD []
    let withoutBaseline : Except JsError (List Component) :=
      .ok (filterComponentsWithUnapprovedLicenses approvedLicenses components)
    match baselineSBOMData with
    | none => withoutBaseline
    | some baseline =>
      if baseline.truthy then
        match readComponents baseline with
        | .error e => .error e
        | .ok none => .error .typeError
        | .ok (some baselineComponents) =>
          .ok (filterComponentsWithUnapprovedLicenses approvedLicenses
            (newComponents baselineComponents components))
      else withoutBaseline

/-! ## Reporter (lines 57-61 and 77-84) -/

/-- A table row: the object literal of lines 78-83, as its key/value pairs in order. -/
abbrev Row := List (String × String)

/-- What the script writes to standard output. -/
inductive Output where
  | log (message : String)
  | table (rows : List Row)
  deriving DecidableEq, Repr

/-- The method `Array.prototype.map` with a callback that may throw. -/
def jsMap {α β : Type} (f : α → Except JsError β) : List α → Except JsError (List β)
  | [] => .ok []
  | x :: xs =>
    match f x with
    | .error e => .error e
    | .ok y =>
      match jsMap f xs with
      | .error e => .error e
      | .ok ys => .ok (y :: ys)

/-- Line 81, the callback `license => license.license.id || 'Unknown'`:
reading `.license` of `null` or `.id` of `undefined` throws. -/
def licenseCell (license : Option LicenseEntry) : Except JsError String :=
  match license with
  | none => .error .typeError
  | some entry =>
    match entry.license with
    | none => .error .typeError
    | some obj => .ok (orElse obj.id "Unknown")

/-- Line 81: the `License` column. -/
def licenseColumn (component : Component) : Except JsError String :=
  match jsMap licenseCell (component.licenses.getD []) with
  | .error e => .error e
  | .ok cells => .ok (", ".intercalate cells)

/-- The fixed property name of line 82. -/
def locationKey : String := "syft:location:0:path"

/-- Line 82: the `Location` column. -/
def locationCell (component : Component) : String :=
  let found : Option Property :=
    match component.properties with
    | none => none
    | some props => props.find? fun prop => decide (prop.name = some locationKey)
  let value : Option String :=
    match found with
    | none => none
    | some prop => prop.value
  orElse value "N/A"

/-- Lines 78-83: the row of one component. -/
def buildRow (component : Component) : Except JsError Row :=
  match licenseColumn component with
  | .error e => .error e
  | .ok license =>
    .ok [("Component Name", orElse component.name "N/A"),
         ("pURL", orElse component.purl "N/A"),
         ("License", license),
         ("Location", locationCell component)]

/-- Lines 77-84: `displayFilteredComponents`, one `console.table` call. -/
def displayFilteredComponents (components : List Component) : Except JsError (List Output) :=
  match jsMap buildRow components with
  | .error e => .error e
  | .ok rows => .ok [.table rows]

/-- The message of line 58. -/
def successMessage : String := "No components with unapproved licenses found."

/-- Lines 57-61: the report of the filtered components. -/
def report (filtered : List Component) : Except JsError (List Output) :=
  if filtered.length = 0 then .ok [.log successMessage]
  else displayFilteredComponents filtered

/-- Lines 46-61: filter, then report. -/
def run (approvedLicenses : List String) (sbomData : JsonDoc)
    (baselineSBOMData : Option JsonDoc) : Except JsError (List Output) :=
  match filteredComponents approvedLicenses sbomData baselineSBOMData with
  | .error e => .error e
  | .ok filtered => report filtered

/-! ## Loader (lines 8-11)

The text of the resource is a sequence of code points.  The line feed and
every character that `trim` removes are single UTF-16 code units, so that
splitting and trimming by code point agree with the script's. -/

/-- The code points `String.prototype.trim` removes: ECMAScript `WhiteSpace`
and `LineTerminator`. -/
def isJsWhitespace (c : Char) : Bool :=
  let n := c.toNat
  n = 0x09 || n = 0x0A || n = 0x0B || n = 0x0C || n = 0x0D || n = 0x20 || n = 0xA0 ||
  n = 0x1680 || (0x2000 ≤ n && n ≤ 0x200A) || n = 0x2028 || n = 0x2029 || n = 0x202F ||
  n = 0x205F || n = 0x3000 || n = 0xFEFF

/-- Splitting of a character sequence at every line feed; the empty text has one line. -/
def splitLines : List Char → List (List Char)
  | [] => [[]]
  | c :: cs =>
    if c = '\n' then [] :: splitLines cs
    else
      match splitLines cs with
      | [] => [[c]]
      | line :: rest => (c :: line) :: rest

/-- The call `text.split('\n')`. -/
def split (text : String) : List String :=
  (splitLines text.data).map String.mk

/-- Removal of whitespace from both ends of a character sequence. -/
def trimChars (cs : List Char) : List Char :=
  ((cs.dropWhile isJsWhitespace).reverse.dropWhile isJsWhitespace).reverse

/-- The call `line.trim()`. -/
def trim (line : String) : String :=
  String.mk (trimChars line.data)

/-- Lines 8-11: `approvedLicenses`, from the text of `ALLOWED_LICENSES.txt`. -/
def approvedLicenses (text : String) : List String :=
  ((split text).map fun line => trim line).filter fun line => decide (line ≠ "")

/-! ## Sample inputs -/

/-- The license entry `{ license: { id } }`. -/
def licenseWithId (id : String) : Option LicenseEntry :=
  some { license := some { id := some id } }

/-- The license entry `{}`, as for an entry that has an `expression` and no `license`. -/
def licenseWithoutObject : Option LicenseEntry :=
  some { license := none }

/-- A component whose licenses are all approved, unidentified or `null`. -/
def approvedComponent : Component :=
  { name := some "left-pad", purl := some "pkg:npm/left-pad@1.3.0",
    licenses := some [licenseWithId "MIT", licenseWithoutObject, none,
      some { license := some { id := none } }],
    properties := none }

/-- A component with the single license entry `{ license: { id: '' } }`. -/
def emptyIdComponent : Component :=
  { name := some "foo", purl := some "pkg:npm/foo@1.0.0",
    licenses := some [licenseWithId ""], properties := none }

/-- A component with an unapproved license and a purl. -/
def gplComponent : Component :=
  { name := some "foo", purl := some "pkg:npm/foo@1.0.0",
    licenses := some [licenseWithId "GPL-3.0-only"], properties := none }

/-- A component with an unapproved license and no purl. -/
def gplNoPurlComponent : Component :=
  { name := some "bar", purl := none,
    licenses := some [licenseWithId "GPL-3.0-only"], properties := none }

/-- A baseline component without a purl. -/
def baselineNoPurlComponent : Component :=
  { name := some "vendored", purl := none, licenses := none, properties := none }

/-- A baseline component with a purl. -/
def baselineComponent : Component :=
  { name := some "foo", purl := some "pkg:npm/foo@1.0.0", licenses := none, properties := none }

/-- A component with an unapproved license followed by an entry without `license`. -/
def mixedLicenseComponent : Component :=
  { name := some "baz", purl := some "pkg:npm/baz@2.0.0",
    licenses := some [licenseWithId "GPL-3.0-only", licenseWithoutObject],
    properties := none }

/-- A component whose location property has an empty `value`. -/
def emptyLocationComponent : Component :=
  { name := some "qux", purl := none, licenses := none,
    properties := some [{ name := some "syft:location:0:path", value := some "" }] }

/-- A component with two location properties, after an unrelated one. -/
def locatedComponent : Component :=
  { name := some "qux", purl := none, licenses := none,
    properties := some [{ name := some "syft:package:type", value := some "npm" },
      { name := some "syft:location:0:path", value := some "/app/package.json" },
      { name := some "syft:location:0:path", value := some "/other" }] }

/-! ## Filter: lemmas -/

theorem isUnapprovedLicense_iff (approvedLicenses : List String) (license : Option LicenseEntry) :
    isUnapprovedLicense approvedLicenses license = true ↔
      ∃ id, entryId license = some id ∧ id ≠ "" ∧ id ∉ approvedLicenses := by
  rcases license with _ | ⟨_ | ⟨_ | id⟩⟩ <;> simp [isUnapprovedLicense, entryId, truthy]

theorem mem_filterComponents_iff (approvedLicenses : List String) (components : List Component)
    (c : Component) :
    c ∈ filterComponentsWithUnapprovedLicenses approvedLicenses components ↔
      c ∈ components ∧
        ∃ license ∈ c.licenses.getD [], isUnapprovedLicense approvedLicenses license = true := by
  simp [filterComponentsWithUnapprovedLicenses, List.mem_filter, List.any_eq_true]

theorem readComponents_of_ne_null (doc : JsonDoc) (h : doc ≠ .null) :
    readComponents doc = .ok (componentsField doc) := by
  cases doc <;> first | rfl | exact absurd rfl h

theorem readComponents_of_truthy (doc : JsonDoc) (h : doc.truthy = true) :
    readComponents doc = .ok (componentsField doc) := by
  apply readComponents_of_ne_null
  intro hnull
  subst hnull
  cases h

/-- On a primary document other than `null`, line 46 gives its components
or the empty list, and the rest is the branch of line 49. -/
theorem filteredComponents_of_ne_null (approvedLicenses : List String) (sbomData : JsonDoc)
    (baselineSBOMData : Option JsonDoc) (h : sbomData ≠ .null) :
    filteredComponents approvedLicenses sbomData baselineSBOMData =
      match baselineSBOMData with
      | none => .ok (filterComponentsWithUnapprovedLicenses approvedLicenses
          ((componentsField sbomData).getD []))
      | some baseline =>
        if baseline.truthy = true then
          match readComponents baseline with
          | .error e => .error e
          | .ok none => .error .typeError
          | .ok (some baselineComponents) =>
            .ok (filterComponentsWithUnapprovedLicenses approvedLicenses
              (newComponents baselineComponents ((componentsField sbomData).getD [])))
        else .ok (filterComponentsWithUnapprovedLicenses approvedLicenses
          ((componentsField sbomData).getD [])) := by
  unfold filteredComponents
  rw [readComponents_of_ne_null sbomData h]

/-- A falsy baseline document (`null`, `false`, `0`, `''`) is handled as if
no baseline was supplied. -/
theorem filteredComponents_of_falsy_baseline (approvedLicenses : List String)
    (sbomData baseline : JsonDoc) (h : baseline.truthy = false) :
    filteredComponents approvedLicenses sbomData (some baseline) =
      filteredComponents approvedLicenses sbomData none := by
  unfold filteredComponents
  cases readComponents sbomData with
  | error e => rfl
  | ok field => simp [h]

theorem filteredComponents_eq_ok (approvedLicenses : List String) (sbomData : SbomDoc)
    (baselineComponents : List Component) :
    filteredComponents approvedLicenses (.object sbomData)
        (some (.object { components := some baselineComponents })) =
      .ok (filterComponentsWithUnapprovedLicenses approvedLicenses
        (newComponents baselineComponents (sbomData.components.getD []))) := rfl

theorem mem_newComponents_iff (baselineComponents components : List Component) (c : Component) :
    c ∈ newComponents baselineComponents components ↔
      c ∈ components ∧ ∀ b ∈ baselineComponents, b.purl ≠ c.purl := by
  simp [newComponents, baselineComponentsPurls, List.mem_filter]

/-! ## Filter: the claims -/

/-- C1: a component whose every license entry carries no identifier or an
identifier of the allow-list is not in the output of
`filterComponentsWithUnapprovedLicenses`; an empty or absent `licenses`
satisfies the condition vacuously. -/
theorem approved_component_not_retained (approvedLicenses : List String)
    (components : List Component) (c : Component)
    (h : ∀ license ∈ c.licenses.getD [],
      entryId license = none ∨ ∃ id, entryId license = some id ∧ id ∈ approvedLicenses) :
    c ∉ filterComponentsWithUnapprovedLicenses approvedLicenses components := by
  rw [mem_filterComponents_iff]
  rintro ⟨_, license, hl, hu⟩
  obtain ⟨id, hid, _, hnot⟩ := (isUnapprovedLicense_iff _ _).mp hu
  rcases h license hl with hnone | ⟨id2, hid2, hmem⟩
  · rw [hnone] at hid; cases hid
  · rw [hid2] at hid; cases hid; exact hnot hmem

theorem approved_component_not_retained_witness :
    approvedComponent ∉ filterComponentsWithUnapprovedLicenses ["MIT", "Apache-2.0"]
      [gplComponent, approvedComponent] := by
  apply approved_component_not_retained
  intro license hl
  simp [approvedComponent, licenseWithId, licenseWithoutObject] at hl
  rcases hl with rfl | rfl | rfl | rfl <;> simp [entryId]

/-- C2, against the claim as stated: the identifier `''` is a string that is
not in the allow-list, and the component that carries it is not retained. -/
theorem empty_identifier_not_retained :
    emptyIdComponent ∈ [emptyIdComponent] ∧
    licenseWithId "" ∈ emptyIdComponent.licenses.getD [] ∧
    entryId (licenseWithId "") = some "" ∧
    "" ∉ ["MIT"] ∧
    emptyIdComponent ∉ filterComponentsWithUnapprovedLicenses ["MIT"] [emptyIdComponent] := by
  decide

/-- C2, amended: every candidate component that has a license entry whose
identifier is a non-empty string not in the allow-list is in the output of
`filterComponentsWithUnapprovedLicenses`. -/
theorem unapproved_component_retained (approvedLicenses : List String)
    (components : List Component) (c : Component) (license : Option LicenseEntry) (id : String)
    (hc : c ∈ components) (hl : license ∈ c.licenses.getD [])
    (hid : entryId license = some id) (hne : id ≠ "") (hnot : id ∉ approvedLicenses) :
    c ∈ filterComponentsWithUnapprovedLicenses approvedLicenses components := by
  rw [mem_filterComponents_iff]
  exact ⟨hc, license, hl, (isUnapprovedLicense_iff _ _).mpr ⟨id, hid, hne, hnot⟩⟩

theorem unapproved_component_retained_witness :
    gplComponent ∈ filterComponentsWithUnapprovedLicenses ["MIT", "gpl-3.0-only"]
      [approvedComponent, gplComponent] :=
  unapproved_component_retained ["MIT", "gpl-3.0-only"] [approvedComponent, gplComponent]
    gplComponent (licenseWithId "GPL-3.0-only") "GPL-3.0-only"
    (by decide) (by decide) (by decide) (by decide) (by decide)

/-- C3: with a baseline, a primary component whose `purl` equals the `purl`
of a baseline component is not among the filtered components, whatever its
licenses are. -/
theorem baseline_match_excluded (approvedLicenses : List String) (sbomData : SbomDoc)
    (baselineComponents : List Component) (c b : Component)
    (hb : b ∈ baselineComponents) (hp : c.purl = b.purl) :
    ∃ filtered,
      filteredComponents approvedLicenses (.object sbomData)
        (some (.object { components := some baselineComponents })) = .ok filtered ∧
      c ∉ filtered := by
  refine ⟨_, filteredComponents_eq_ok _ _ _, ?_⟩
  rw [mem_filterComponents_iff, mem_newComponents_iff]
  rintro ⟨⟨_, hall⟩, _⟩
  exact hall b hb hp.symm

theorem baseline_match_excluded_witness :
    ∃ filtered,
      filteredComponents ["MIT"] (.object { components := some [gplComponent] })
        (some (.object { components := some [baselineComponent] })) = .ok filtered ∧
      gplComponent ∉ filtered :=
  baseline_match_excluded ["MIT"] { components := some [gplComponent] } [baselineComponent]
    gplComponent baselineComponent (by decide) (by decide)

/-- C4, against the claim as stated: a baseline component without a `purl`
puts `undefined` in the baseline set, so a primary component without a
`purl` is dropped by the baseline-exclusion step and is not reported, even
with an unapproved license. -/
theorem purlless_component_dropped :
    gplNoPurlComponent.purl = none ∧
    gplNoPurlComponent ∈ filterComponentsWithUnapprovedLicenses ["MIT"] [gplNoPurlComponent] ∧
    gplNoPurlComponent ∉ newComponents [baselineNoPurlComponent] [gplNoPurlComponent] ∧
    filteredComponents ["MIT"] (.object { components := some [gplNoPurlComponent] })
      (some (.object { components := some [baselineNoPurlComponent] })) = .ok [] :=
  ⟨by decide, by decide, by decide, rfl⟩

/-- C4, amended: with a baseline in which every component has a `purl`, a
primary component that has no `purl` is kept by the baseline-exclusion step
(it is in `newComponents`), and if it has an unapproved license it is among
the filtered components. -/
theorem purlless_component_kept (approvedLicenses : List String) (components : List Component)
    (baselineComponents : List Component) (c : Component)
    (hc : c ∈ components) (hp : c.purl = none)
    (hb : ∀ b ∈ baselineComponents, b.purl ≠ none) :
    c ∈ newComponents baselineComponents components ∧
    ((∃ license ∈ c.licenses.getD [], isUnapprovedLicense approvedLicenses license = true) →
      ∃ filtered,
        filteredComponents approvedLicenses (.object { components := some components })
          (some (.object { components := some baselineComponents })) = .ok filtered ∧
        c ∈ filtered) := by
  have hnew : c ∈ newComponents baselineComponents components := by
    rw [mem_newComponents_iff]
    exact ⟨hc, fun b hbm => by rw [hp]; exact hb b hbm⟩
  refine ⟨hnew, fun hu => ⟨_, filteredComponents_eq_ok _ _ _, ?_⟩⟩
  rw [mem_filterComponents_iff]
  exact ⟨hnew, hu⟩

theorem purlless_component_kept_witness :
    gplNoPurlComponent ∈ newComponents [baselineComponent] [gplComponent, gplNoPurlComponent] ∧
    ∃ filtered,
      filteredComponents ["MIT"]
        (.object { components := some [gplComponent, gplNoPurlComponent] })
        (some (.object { components := some [baselineComponent] })) = .ok filtered ∧
      gplNoPurlComponent ∈ filtered :=
  have h := purlless_component_kept ["MIT"] [gplComponent, gplNoPurlComponent]
    [baselineComponent] gplNoPurlComponent (by decide) (by decide) (by decide)
  ⟨h.1, h.2 ⟨licenseWithId "GPL-3.0-only", by decide, by decide⟩⟩

/-- C5: whenever the filter produces a list, it is a sublist of the primary
SBOM's components (the same records in the same relative order, none
duplicated or altered); it produces a list unless the primary document is
`null` or a truthy baseline document without `components` was supplied. -/
theorem filtered_is_sublist (approvedLicenses : List String) (sbomData : JsonDoc)
    (baselineSBOMData : Option JsonDoc) :
    match filteredComponents approvedLicenses sbomData baselineSBOMData with
    | .ok filtered => filtered.Sublist ((componentsField sbomData).getD [])
    | .error _ =>
      sbomData = .null ∨
        ∃ baseline, baselineSBOMData = some baseline ∧ baseline.truthy = true ∧
          componentsField baseline = none := by
  by_cases hnull : sbomData = .null
  · subst hnull
    exact Or.inl rfl
  · rw [filteredComponents_of_ne_null _ _ _ hnull]
    rcases baselineSBOMData with _ | baseline
    · exact List.filter_sublist _
    · by_cases ht : baseline.truthy = true
      · have hread := readComponents_of_truthy baseline ht
        cases hc : componentsField baseline with
        | none =>
          simp only [ht, if_true, hread, hc]
          exact Or.inr ⟨baseline, rfl, ht, hc⟩
        | some baselineComponents =>
          simp only [ht, if_true, hread, hc]
          exact (List.filter_sublist _).trans (List.filter_sublist _)
      · simp only [ht]
        exact List.filter_sublist _

/-- C10, against the claim as stated: a baseline file that holds `null`
parses as JSON and has no `components`, yet the filter does not fail: the
falsy document is handled as if no baseline was supplied and a report is
printed; and a primary document `null` is not read as an empty list, it
makes the filter fail. -/
theorem falsy_baseline_ignored :
    componentsField .null = none ∧
    filteredComponents ["MIT"] (.object { components := some [gplComponent] }) (some .null) =
      .ok [gplComponent] ∧
    run ["MIT"] (.object { components := some [gplComponent] }) (some .null) =
      .ok [.table [[("Component Name", "foo"), ("pURL", "pkg:npm/foo@1.0.0"),
        ("License", "GPL-3.0-only"), ("Location", "N/A")]]] ∧
    filteredComponents ["MIT"] (.object { components := some [gplComponent] })
      (some (.object { components := some [] })) = .ok [gplComponent] ∧
    filteredComponents ["MIT"] .null none = .error .typeError :=
  ⟨rfl, rfl, rfl, rfl, rfl⟩

/-- C10, amended: a supplied baseline document that is truthy (an object,
an array, `true`, a non-zero number or a non-empty string) and has no
`components` makes the filter fail, so that there is no filtered list and
no report, whereas a baseline with an empty `components` gives the license
filter of all primary components, and a primary document other than `null`
without `components` is read as one with an empty list. -/
theorem baseline_without_components_fails (approvedLicenses : List String)
    (sbomData baseline : JsonDoc) (baselineSBOMData : Option JsonDoc)
    (ht : baseline.truthy = true) (hc : componentsField baseline = none) :
    filteredComponents approvedLicenses sbomData (some baseline) = .error .typeError ∧
    run approvedLicenses sbomData (some baseline) = .error .typeError ∧
    (sbomData ≠ .null →
      filteredComponents approvedLicenses sbomData (some (.object { components := some [] })) =
        .ok (filterComponentsWithUnapprovedLicenses approvedLicenses
          ((componentsField sbomData).getD []))) ∧
    (sbomData ≠ .null → componentsField sbomData = none →
      filteredComponents approvedLicenses sbomData baselineSBOMData =
        filteredComponents approvedLicenses (.object { components := some [] })
          baselineSBOMData ∧
      run approvedLicenses sbomData none = .ok [.log successMessage]) := by
  have hfail : filteredComponents approvedLicenses sbomData (some baseline) =
      .error .typeError := by
    by_cases hnull : sbomData = .null
    · subst hnull
      rfl
    · rw [filteredComponents_of_ne_null _ _ _ hnull]
      simp only [ht, if_true, readComponents_of_truthy baseline ht, hc]
  refine ⟨hfail, ?_, ?_, ?_⟩
  · simp only [run, hfail]
  · intro hnull
    rw [filteredComponents_of_ne_null _ _ _ hnull]
    simp [JsonDoc.truthy, readComponents, componentsField, newComponents,
      baselineComponentsPurls]
  · intro hnull hnone
    have hobj : (JsonDoc.object { components := some [] }) ≠ .null := by
      intro h
      cases h
    refine ⟨?_, ?_⟩
    · rw [filteredComponents_of_ne_null _ _ _ hnull,
        filteredComponents_of_ne_null _ _ _ hobj, hnone]
      rfl
    · simp only [run, filteredComponents_of_ne_null _ _ _ hnull, hnone]
      rfl

theorem baseline_without_components_fails_witness :
    filteredComponents ["MIT"] (.object { components := some [gplComponent] })
      (some .array) = .error .typeError ∧
    run ["MIT"] (.object { components := some [gplComponent] }) (some .array) =
      .error .typeError :=
  have h := baseline_without_components_fails ["MIT"]
    (.object { components := some [gplComponent] }) .array none rfl rfl
  ⟨h.1, h.2.1⟩

/-! ## Reporter: lemmas -/

theorem jsMap_eq_ok_map {α β : Type} (f : α → Except JsError β) (g : α → β) :
    ∀ xs : List α, (∀ x ∈ xs, f x = .ok (g x)) → jsMap f xs = .ok (xs.map g)
  | [], _ => rfl
  | x :: xs, h => by
    have hx : f x = .ok (g x) := h x (List.mem_cons_self _ _)
    have hxs : jsMap f xs = .ok (xs.map g) :=
      jsMap_eq_ok_map f g xs fun y hy => h y (List.mem_cons_of_mem _ hy)
    simp [jsMap, hx, hxs]

theorem jsMap_eq_error_of_mem {α β : Type} (f : α → Except JsError β) :
    ∀ xs : List α, (∃ x ∈ xs, f x = .error .typeError) → jsMap f xs = .error .typeError
  | [], h => by simp at h
  | x :: xs, h => by
    cases hx : f x with
    | error e => cases e; simp [jsMap, hx]
    | ok y =>
      have hxs : jsMap f xs = .error .typeError := by
        apply jsMap_eq_error_of_mem f xs
        obtain ⟨z, hz, hfz⟩ := h
        rcases List.mem_cons.mp hz with rfl | hz
        · rw [hx] at hfz; cases hfz
        · exact ⟨z, hz, hfz⟩
      simp [jsMap, hx, hxs]

/-- The `License` column is built for a component whose license entries all
have a nested `license` object: the identifiers, or `Unknown`, joined by `', '`. -/
theorem licenseColumn_of_objects (c : Component)
    (h : ∀ license ∈ c.licenses.getD [], ∃ obj, license = some { license := some obj }) :
    licenseColumn c =
      .ok (", ".intercalate ((c.licenses.getD []).map fun license =>
        orElse (entryId license) "Unknown")) := by
  have hmap := jsMap_eq_ok_map licenseCell (fun license => orElse (entryId license) "Unknown")
    (c.licenses.getD []) (by
      intro license hl
      obtain ⟨obj, rfl⟩ := h license hl
      rfl)
  simp [licenseColumn, hmap]

/-- The `License` column fails for a component that has a `null` license
entry or a license entry without a nested `license` object. -/
theorem licenseColumn_of_missing_object (c : Component) (license : Option LicenseEntry)
    (hl : license ∈ c.licenses.getD [])
    (h : license = none ∨ license = some { license := none }) :
    licenseColumn c = .error .typeError := by
  have herr : jsMap licenseCell (c.licenses.getD []) = .error .typeError := by
    apply jsMap_eq_error_of_mem
    refine ⟨license, hl, ?_⟩
    rcases h with rfl | rfl <;> rfl
  simp [licenseColumn, herr]

/-- The report of an empty list is the success message alone. -/
theorem report_nil : report [] = .ok [.log successMessage] := rfl

/-- The report of a non-empty list of components whose license entries all
have a nested `license` object is one table with one four-column row per
component, in order. -/
theorem report_of_objects (filtered : List Component) (hne : filtered ≠ [])
    (h : ∀ c ∈ filtered, ∀ license ∈ c.licenses.getD [],
      ∃ obj, license = some { license := some obj }) :
    ∃ rows, report filtered = .ok [.table rows] ∧
      rows = filtered.map (fun c =>
        [("Component Name", orElse c.name "N/A"), ("pURL", orElse c.purl "N/A"),
         ("License", ", ".intercalate ((c.licenses.getD []).map fun license =>
            orElse (entryId license) "Unknown")),
         ("Location", locationCell c)]) ∧
      rows.length = filtered.length ∧
      ∀ row ∈ rows, row.map Prod.fst = ["Component Name", "pURL", "License", "Location"] := by
  refine ⟨_, ?_, rfl, by simp, ?_⟩
  · have hlen : filtered.length ≠ 0 := fun h0 => hne (List.length_eq_zero.mp h0)
    have hmap := jsMap_eq_ok_map buildRow (fun c =>
        [("Component Name", orElse c.name "N/A"), ("pURL", orElse c.purl "N/A"),
         ("License", ", ".intercalate ((c.licenses.getD []).map fun license =>
            orElse (entryId license) "Unknown")),
         ("Location", locationCell c)]) filtered (fun c hc => by
      simp only [buildRow, licenseColumn_of_objects c (h c hc)])
    simp only [report, hlen, if_false, displayFilteredComponents, hmap]
  · intro row hrow
    obtain ⟨c, _, rfl⟩ := List.mem_map.mp hrow
    rfl

theorem find_location_append (pre post : List Property) (p : Property)
    (hpre : ∀ q ∈ pre, q.name ≠ some locationKey) (hp : p.name = some locationKey) :
    (pre ++ p :: post).find? (fun prop => decide (prop.name = some locationKey)) = some p := by
  induction pre with
  | nil => simp [List.find?, hp]
  | cons q pre ih =>
    have hq : q.name ≠ some locationKey := hpre q (List.mem_cons_self _ _)
    have ih2 := ih fun r hr => hpre r (List.mem_cons_of_mem _ hr)
    simp only [List.cons_append, List.find?, hq, decide_False]
    exact ih2

theorem find_location_none (props : List Property)
    (h : ∀ q ∈ props, q.name ≠ some locationKey) :
    props.find? (fun prop => decide (prop.name = some locationKey)) = none := by
  simp only [List.find?_eq_none, decide_eq_true_eq]
  exact h

/-! ## Reporter: the claims -/

/-- C6, at a failing input: the filter retains a component that has an
unapproved license and a license entry without a nested `license` object,
and `displayFilteredComponents` fails on it with a `TypeError` instead of
showing `Unknown` for that entry. -/
theorem display_fails_on_retained_component :
    mixedLicenseComponent ∈
      filterComponentsWithUnapprovedLicenses ["MIT"] [mixedLicenseComponent] ∧
    licenseWithoutObject ∈ mixedLicenseComponent.licenses.getD [] ∧
    isUnapprovedLicense ["MIT"] licenseWithoutObject = false ∧
    licenseCell licenseWithoutObject = .error .typeError ∧
    buildRow mixedLicenseComponent = .error .typeError ∧
    displayFilteredComponents [mixedLicenseComponent] = .error .typeError :=
  ⟨by decide, by decide, by decide, rfl, rfl, rfl⟩

/-- C7, at a failing input: for a non-empty filtered list that holds a
component with a license entry without a nested `license` object, the
reporter prints neither the success message nor a table: it fails. -/
theorem report_fails_on_filtered_list :
    filteredComponents ["MIT"]
      (.object { components := some [approvedComponent, mixedLicenseComponent] })
      none = .ok [mixedLicenseComponent] ∧
    report [mixedLicenseComponent] = .error .typeError ∧
    run ["MIT"] (.object { components := some [approvedComponent, mixedLicenseComponent] })
      none = .error .typeError :=
  ⟨rfl, rfl, rfl⟩

/-- C9, against the claim as stated: `properties` has an entry named
`syft:location:0:path`, its `value` is the empty string, and the `Location`
column is `N/A`. -/
theorem empty_location_gives_na :
    emptyLocationComponent.properties =
      some [{ name := some "syft:location:0:path", value := some "" }] ∧
    locationCell emptyLocationComponent = "N/A" ∧
    locationCell emptyLocationComponent ≠ "" ∧
    buildRow emptyLocationComponent =
      .ok [("Component Name", "qux"), ("pURL", "N/A"), ("License", ""), ("Location", "N/A")] :=
  ⟨rfl, by decide, by decide, rfl⟩

/-- C9, amended: the `Location` column of a built row is `locationCell`;
it is the `value` of the first entry of `properties` named
`syft:location:0:path` when that value is a non-empty string, and it is
`N/A` when `properties` is absent, when no entry has that name, or when the
first entry of that name has an absent or empty `value`. -/
theorem location_column (c : Component) :
    (∀ row, buildRow c = .ok row → row.lookup "Location" = some (locationCell c)) ∧
    (∀ pre p post v, c.properties = some (pre ++ p :: post) →
      (∀ q ∈ pre, q.name ≠ some locationKey) → p.name = some locationKey →
      p.value = some v → v ≠ "" → locationCell c = v) ∧
    (c.properties = none → locationCell c = "N/A") ∧
    (∀ props, c.properties = some props → (∀ q ∈ props, q.name ≠ some locationKey) →
      locationCell c = "N/A") ∧
    (∀ pre p post, c.properties = some (pre ++ p :: post) →
      (∀ q ∈ pre, q.name ≠ some locationKey) → p.name = some locationKey →
      (p.value = none ∨ p.value = some "") → locationCell c = "N/A") := by
  refine ⟨?_, ?_, ?_, ?_, ?_⟩
  · intro row hrow
    unfold buildRow at hrow
    cases hlic : licenseColumn c with
    | error e => rw [hlic] at hrow; cases hrow
    | ok license =>
      rw [hlic] at hrow
      cases hrow
      rfl
  · intro pre p post v hprops hpre hp hv hne
    simp [locationCell, hprops, find_location_append pre post p hpre hp, hv, orElse, hne]
  · intro hprops
    simp [locationCell, hprops, orElse]
  · intro props hprops hall
    simp [locationCell, hprops, find_location_none props hall, orElse]
  · intro pre p post hprops hpre hp hv
    rcases hv with hv | hv <;>
      simp [locationCell, hprops, find_location_append pre post p hpre hp, hv, orElse]

theorem location_column_witness :
    locationCell locatedComponent = "/app/package.json" :=
  (location_column locatedComponent).2.1
    [{ name := some "syft:package:type", value := some "npm" }]
    { name := some "syft:location:0:path", value := some "/app/package.json" }
    [{ name := some "syft:location:0:path", value := some "/other" }]
    "/app/package.json" rfl (by decide) rfl rfl (by decide)

/-! ## Loader: lemmas -/

theorem splitLines_ne_nil (cs : List Char) : splitLines cs ≠ [] := by
  cases cs with
  | nil => simp [splitLines]
  | cons c cs =>
    unfold splitLines
    split
    · simp
    · split <;> simp

/-- Joining the lines with line feeds gives the text back. -/
theorem intercalate_splitLines (cs : List Char) :
    List.intercalate ['\n'] (splitLines cs) = cs := by
  induction cs with
  | nil => rfl
  | cons c cs ih =>
    unfold splitLines
    split
    · next h =>
      subst h
      cases hs : splitLines cs with
      | nil => exact absurd hs (splitLines_ne_nil cs)
      | cons line rest =>
        rw [hs] at ih
        simp only [List.intercalate, List.intersperse, List.flatten, List.nil_append,
          List.singleton_append] at ih ⊢
        rw [ih]
    · cases hs : splitLines cs with
      | nil => exact absurd hs (splitLines_ne_nil cs)
      | cons line rest =>
        rw [hs] at ih
        cases rest with
        | nil =>
          simp only [List.intercalate, List.intersperse, List.flatten, List.append_nil] at ih ⊢
          rw [ih]
        | cons line2 rest =>
          simp only [List.intercalate, List.intersperse, List.flatten, List.cons_append] at ih ⊢
          rw [ih]

/-- No line holds a line feed. -/
theorem newline_not_mem_splitLines (cs : List Char) :
    ∀ line ∈ splitLines cs, '\n' ∉ line := by
  induction cs with
  | nil => simp [splitLines]
  | cons c cs ih =>
    unfold splitLines
    split
    · intro line hl
      rcases List.mem_cons.mp hl with rfl | hl
      · simp
      · exact ih line hl
    · next hc =>
      cases hs : splitLines cs with
      | nil => exact absurd hs (splitLines_ne_nil cs)
      | cons first rest =>
        rw [hs] at ih
        intro line hl
        rcases List.mem_cons.mp hl with rfl | hl
        · intro hmem
          rcases List.mem_cons.mp hmem with h | h
          · exact hc h.symm
          · exact ih first (List.mem_cons_self _ _) h
        · exact ih line (List.mem_cons_of_mem _ hl)

theorem trimChars_eq (cs : List Char) :
    trimChars cs = (cs.dropWhile isJsWhitespace).rdropWhile isJsWhitespace := rfl

/-- Trimming removes a run of whitespace at each end, and what is left
neither starts nor ends with whitespace. -/
theorem trimChars_spec (cs : List Char) :
    (∃ pre post, cs = pre ++ trimChars cs ++ post ∧
      (∀ c ∈ pre, isJsWhitespace c = true) ∧ (∀ c ∈ post, isJsWhitespace c = true)) ∧
    (∀ c, (trimChars cs).head? = some c → isJsWhitespace c = false) ∧
    (∀ c, (trimChars cs).getLast? = some c → isJsWhitespace c = false) := by
  refine ⟨⟨cs.takeWhile isJsWhitespace, (cs.dropWhile isJsWhitespace).rtakeWhile isJsWhitespace,
    ?_, fun c hc => List.mem_takeWhile_imp hc, fun c hc => List.mem_rtakeWhile_imp hc⟩, ?_, ?_⟩
  · have hright : (cs.dropWhile isJsWhitespace).rdropWhile isJsWhitespace ++
        (cs.dropWhile isJsWhitespace).rtakeWhile isJsWhitespace =
        cs.dropWhile isJsWhitespace := by
      simp [List.rdropWhile, List.rtakeWhile, ← List.reverse_append]
    rw [trimChars_eq, List.append_assoc, hright, List.takeWhile_append_dropWhile]
  · intro c hc
    obtain ⟨t, ht⟩ : trimChars cs <+: cs.dropWhile isJsWhitespace := List.rdropWhile_prefix _ _
    have hhead : (cs.dropWhile isJsWhitespace).head? = some c := by
      rw [← ht]
      cases htrim : trimChars cs with
      | nil => rw [htrim] at hc; cases hc
      | cons a as => rw [htrim] at hc; simpa using hc
    have hnot := List.head?_dropWhile_not isJsWhitespace cs
    rw [hhead] at hnot
    exact hnot
  · intro c hc
    have hne : (cs.dropWhile isJsWhitespace).rdropWhile isJsWhitespace ≠ [] := by
      intro h0
      rw [trimChars_eq, h0] at hc
      cases hc
    have hlast := List.rdropWhile_last_not isJsWhitespace _ hne
    rw [trimChars_eq, List.getLast?_eq_getLast _ hne] at hc
    cases hc
    simpa using hlast

theorem split_data (text : String) :
    (split text).map String.data = splitLines text.data := by
  simp [split, Function.comp_def]

theorem count_filter_map {α : Type} (f : α → String) (keep : String → Bool) (id : String)
    (hkeep : keep id = true) :
    ∀ l : List α, ((l.map f).filter keep).count id = l.countP fun x => decide (f x = id)
  | [] => rfl
  | x :: xs => by
    have ih := count_filter_map f keep id hkeep xs
    by_cases hx : f x = id
    · simp only [List.map_cons, List.filter, hx, hkeep, List.count_cons_self, List.countP_cons,
        decide_True, if_true]
      rw [ih]
    · by_cases hk : keep (f x) = true
      · simp only [List.map_cons, List.filter, hk, List.countP_cons, hx, decide_False]
        rw [List.count_cons_of_ne (fun h => hx h.symm), ih]
        simp
      · simp only [Bool.not_eq_true] at hk
        simp only [List.map_cons, List.filter, hk, List.countP_cons, hx, decide_False]
        rw [ih]
        simp

/-! ## Loader: the claim -/

/-- C8, against the claim as stated: a text with the same identifier on two
lines gives an allow-list that holds the identifier twice. -/
theorem duplicate_lines_kept :
    approvedLicenses "MIT\nMIT" = ["MIT", "MIT"] ∧ ¬ (approvedLicenses "MIT\nMIT").Nodup := by
  constructor <;> decide

/-- C8, amended: `approvedLicenses` is the sequence of the lines of the
text (the pieces between line feeds), each trimmed of the whitespace at its
two ends, with the blank ones discarded and duplicates kept: it holds no
empty string, an identifier is in it exactly when it is the trimmed form of
a non-blank line, and it occurs as often as there are such lines. -/
theorem approvedLicenses_spec (text : String) :
    approvedLicenses text =
      ((split text).map trim).filter (fun line => decide (line ≠ "")) ∧
    List.intercalate ['\n'] ((split text).map String.data) = text.data ∧
    (∀ line ∈ split text, '\n' ∉ line.data) ∧
    (∀ line : String,
      (∃ pre post, line.data = pre ++ (trim line).data ++ post ∧
        (∀ c ∈ pre, isJsWhitespace c = true) ∧ (∀ c ∈ post, isJsWhitespace c = true)) ∧
      (∀ c, (trim line).data.head? = some c → isJsWhitespace c = false) ∧
      (∀ c, (trim line).data.getLast? = some c → isJsWhitespace c = false)) ∧
    "" ∉ approvedLicenses text ∧
    (∀ id, id ∈ approvedLicenses text ↔ ∃ line ∈ split text, trim line ≠ "" ∧ trim line = id) ∧
    (∀ id, id ≠ "" →
      (approvedLicenses text).count id =
        (split text).countP fun line => decide (trim line = id)) := by
  refine ⟨rfl, ?_, ?_, fun line => trimChars_spec line.data, ?_, ?_, ?_⟩
  · rw [split_data, intercalate_splitLines]
  · intro line hl
    apply newline_not_mem_splitLines text.data
    rw [← split_data]
    exact List.mem_map_of_mem _ hl
  · simp [approvedLicenses, List.mem_filter]
  · intro id
    simp only [approvedLicenses, List.mem_filter, List.mem_map, decide_eq_true_eq]
    constructor
    · rintro ⟨⟨line, hl, rfl⟩, hne⟩
      exact ⟨line, hl, hne, rfl⟩
    · rintro ⟨line, hl, hne, rfl⟩
      exact ⟨⟨line, hl, rfl⟩, hne⟩
  · intro id hid
    exact count_filter_map trim (fun line => decide (line ≠ "")) id (by simpa using hid)
      (split text)

end SbomLicenseCheck

